import Mathlib

/-!
Shallow embedding of the reconciliation-service repository
(github.com/tirasundara/reconciliation-service), covering:

* the domain model (`internal/domain`): `SystemTransaction`, `BankTransaction`,
  `Match`, `ReconciliationResult`;
* the matching strategies and the default matcher (`internal/matcher`);
* the reconciliation orchestrator (`internal/service/reconciliation_service.go`);
* the CSV repositories, sequential and concurrent row-processing paths
  (`internal/repository`).

Modelling conventions:

* `shopspring/decimal.Decimal` is modelled as `Rat` (arbitrary-precision
  decimals embed into the rationals; `Equal`, `Sub`, `Abs`, `Neg`,
  `GreaterThan` agree with the rational operations).
* `time.Time` is modelled as `Int`, the number of seconds since the Unix
  epoch in UTC.  `Truncate(24 * time.Hour)` rounds down to a multiple of
  86400 seconds (Go's `Truncate` rounds down since the zero time, which is
  also midnight-aligned), and `AddDate(0, 0, n)` on a UTC instant adds
  `n * 86400` seconds (no DST in UTC).
* Go's `TransactionType` is a string type; it is modelled as `String` with
  the two constants `Debit` and `Credit`.
* fallible Go code (`error` results, panics) is modelled with
  `Except`/`Option`.
-/

/-- Go constant `domain.Debit = "DEBIT"` (internal/domain/system_transaction.go). -/
def Debit : String := "DEBIT"

/-- Go constant `domain.Credit = "CREDIT"` (internal/domain/system_transaction.go). -/
def Credit : String := "CREDIT"

/-- `domain.SystemTransaction` (internal/domain/system_transaction.go).
`Typ` is the Go field `Type` (renamed because `Type` is a Lean keyword);
`TransactionTime` is seconds since the Unix epoch. -/
structure SystemTransaction where
  TrxID : String
  Amount : Rat
  Typ : String
  TransactionTime : Int
deriving DecidableEq, Repr

/-- `domain.BankTransaction` (internal/domain/bank_transaction.go). -/
structure BankTransaction where
  UniqID : String
  Amount : Rat
  Date : Int
  BankID : String
deriving DecidableEq, Repr

/-- `domain.Match` (internal/domain/match.go); the field is spelled
`AmmountDiff` in the source. -/
structure Match where
  SystemTxn : SystemTransaction
  BankTxn : BankTransaction
  AmmountDiff : Rat
deriving DecidableEq, Repr

/-- Go `t.Truncate(24 * time.Hour)` on a UTC instant measured in seconds:
round down to a multiple of 86400. -/
def truncDay (t : Int) : Int := t - t % 86400

/-- The day-granularity range check that the repository filters and the
service filters all spell out inline:
`(txnDay.Equal(startDay) || txnDay.After(startDay)) &&
 (txnDay.Equal(endDay) || txnDay.Before(endDay))`. -/
def inDayRange (t startDate endDate : Int) : Bool :=
  ((truncDay t == truncDay startDate) || decide (truncDay startDate < truncDay t)) &&
  ((truncDay t == truncDay endDate) || decide (truncDay t < truncDay endDate))

/-- `matcher.getNormalizedAmount` (internal/matcher): negate the stored
amount exactly when the transaction type is `Debit`. -/
def getNormalizedAmount (sysTxn : SystemTransaction) : Rat :=
  if sysTxn.Typ = Debit then -sysTxn.Amount else sysTxn.Amount

/-- `matcher.ExactMatchStrategy` — stateless. -/
structure ExactMatchStrategy where
deriving DecidableEq, Repr

/-- `matcher.FuzzyMatchStrategy` (internal/matcher). -/
structure FuzzyMatchStrategy where
  AmountThreshold : Rat
deriving DecidableEq, Repr

/-- `matcher.DateBufferMatchStrategy` (internal/matcher); `BufferDays` is a
Go `int`. -/
structure DateBufferMatchStrategy where
  BufferDays : Int
deriving DecidableEq, Repr

/-- `matcher.NewFuzzyMatchStrategy`: stores the threshold, no validation.
(The Go constructor converts its `float64` argument with
`decimal.NewFromFloat`; the argument here is the decimal value of that
conversion.) -/
def NewFuzzyMatchStrategy (threshold : Rat) : FuzzyMatchStrategy :=
  { AmountThreshold := threshold }

/-- `matcher.NewDateBufferMatchStrategy`: stores the buffer, no validation. -/
def NewDateBufferMatchStrategy (bufferDays : Int) : DateBufferMatchStrategy :=
  { BufferDays := bufferDays }

/-- The candidate scan loop of `ExactMatchStrategy.Match`: skip a candidate
whose truncated date differs from the system transaction's truncated date,
skip a candidate whose amount differs from the normalized system amount,
return the first remaining candidate. -/
def exactScan (sysDay : Int) (sysAmount : Rat) :
    List BankTransaction → Option BankTransaction
  | [] => none
  | b :: rest =>
    if ¬ (truncDay b.Date = sysDay) then exactScan sysDay sysAmount rest
    else if ¬ (b.Amount = sysAmount) then exactScan sysDay sysAmount rest
    else some b

/-- `(*ExactMatchStrategy).Match` (internal/matcher).  The Go method returns
`(domain.BankTransaction{}, false)` on no match; the `Option` models the
`(value, ok)` pair. -/
def ExactMatchStrategy.Match (_s : ExactMatchStrategy)
    (sysTxn : SystemTransaction) (bankTxns : List BankTransaction) :
    Option BankTransaction :=
  exactScan (truncDay sysTxn.TransactionTime) (getNormalizedAmount sysTxn) bankTxns

/-- The candidate scan loop of `FuzzyMatchStrategy.Match`: same-day check,
then skip when `sysAmount.Sub(bankTxn.Amount).Abs()` is greater than the
threshold. -/
def fuzzyScan (sysDay : Int) (sysAmount threshold : Rat) :
    List BankTransaction → Option BankTransaction
  | [] => none
  | b :: rest =>
    if ¬ (truncDay b.Date = sysDay) then fuzzyScan sysDay sysAmount threshold rest
    else if threshold < |sysAmount - b.Amount| then fuzzyScan sysDay sysAmount threshold rest
    else some b

/-- `(*FuzzyMatchStrategy).Match` (internal/matcher). -/
def FuzzyMatchStrategy.Match (s : FuzzyMatchStrategy)
    (sysTxn : SystemTransaction) (bankTxns : List BankTransaction) :
    Option BankTransaction :=
  fuzzyScan (truncDay sysTxn.TransactionTime) (getNormalizedAmount sysTxn)
    s.AmountThreshold bankTxns

/-- The candidate scan loop of `DateBufferMatchStrategy.Match`: skip a
candidate whose truncated date is before `minDate` or after `maxDate`, then
require exact amount equality. -/
def dateBufferScan (minDate maxDate : Int) (sysAmount : Rat) :
    List BankTransaction → Option BankTransaction
  | [] => none
  | b :: rest =>
    if truncDay b.Date < minDate ∨ maxDate < truncDay b.Date then
      dateBufferScan minDate maxDate sysAmount rest
    else if ¬ (b.Amount = sysAmount) then dateBufferScan minDate maxDate sysAmount rest
    else some b

/-- `(*DateBufferMatchStrategy).Match` (internal/matcher):
`minDate := sysTxn.TransactionTime.AddDate(0,0,-s.BufferDays).Truncate(24h)`,
`maxDate := sysTxn.TransactionTime.AddDate(0,0,s.BufferDays).Truncate(24h)`. -/
def DateBufferMatchStrategy.Match (s : DateBufferMatchStrategy)
    (sysTxn : SystemTransaction) (bankTxns : List BankTransaction) :
    Option BankTransaction :=
  dateBufferScan (truncDay (sysTxn.TransactionTime - s.BufferDays * 86400))
    (truncDay (sysTxn.TransactionTime + s.BufferDays * 86400))
    (getNormalizedAmount sysTxn) bankTxns

/-- The closed set of implementations of the Go `MatchingStrategy`
interface (the repository has exactly these three). -/
inductive MatchingStrategy where
  | exact (s : ExactMatchStrategy)
  | fuzzy (s : FuzzyMatchStrategy)
  | dateBuffer (s : DateBufferMatchStrategy)
deriving DecidableEq, Repr

/-- Dynamic dispatch of `MatchingStrategy.Match`. -/
def MatchingStrategy.run : MatchingStrategy → SystemTransaction →
    List BankTransaction → Option BankTransaction
  | .exact s, sysTxn, bankTxns => s.Match sysTxn bankTxns
  | .fuzzy s, sysTxn, bankTxns => s.Match sysTxn bankTxns
  | .dateBuffer s, sysTxn, bankTxns => s.Match sysTxn bankTxns

/-- The claim-tracking key of `DefaultMatcher.FindMatches`:
`fmt.Sprintf("%s-%s", bankTxn.BankID, bankTxn.UniqID)`. -/
def bankKey (b : BankTransaction) : String := b.BankID ++ "-" ++ b.UniqID

/-- `matcher.DefaultMatcher` (internal/matcher): an ordered list of
strategies. -/
structure DefaultMatcher where
  strategies : List MatchingStrategy
deriving Repr

/-- The inner strategy loop of `DefaultMatcher.FindMatches`: for each
strategy in order, filter the bank transactions down to those whose key is
not yet in `matchedBankTxns` (here: the `claimed` list), ask the strategy,
and stop at the first strategy that finds a match. -/
def tryStrategies (claimed : List String) (sysTxn : SystemTransaction)
    (bankTxns : List BankTransaction) :
    List MatchingStrategy → Option BankTransaction
  | [] => none
  | strategy :: rest =>
    let availableBankTxns := bankTxns.filter (fun b => !(claimed.contains (bankKey b)))
    match strategy.run sysTxn availableBankTxns with
    | some bankTxn => some bankTxn
    | none => tryStrategies claimed sysTxn bankTxns rest

/-- The outer loop of `DefaultMatcher.FindMatches`: for each system
transaction try the strategies; on success mark the chosen bank
transaction's key as claimed and record the `Match` with
`AmmountDiff := sysAmount.Sub(matchedBankTxn.Amount).Abs()`. -/
def findMatchesGo (strategies : List MatchingStrategy) (claimed : List String) :
    List SystemTransaction → List BankTransaction → List Match
  | [], _ => []
  | sysTxn :: rest, bankTxns =>
    match tryStrategies claimed sysTxn bankTxns strategies with
    | some matchedBankTxn =>
      { SystemTxn := sysTxn
        BankTxn := matchedBankTxn
        AmmountDiff := |getNormalizedAmount sysTxn - matchedBankTxn.Amount| } ::
        findMatchesGo strategies (bankKey matchedBankTxn :: claimed) rest bankTxns
    | none => findMatchesGo strategies claimed rest bankTxns

/-- `(*DefaultMatcher).FindMatches` (internal/matcher): its only return
statement is `return matches, nil`, so the error component is literally
always `nil` (modelled as `none`). -/
def DefaultMatcher.FindMatches (m : DefaultMatcher)
    (systemTxns : List SystemTransaction) (bankTxns : List BankTransaction) :
    List Match × Option String :=
  (findMatchesGo m.strategies [] systemTxns bankTxns, none)

/-- `domain.ReconciliationResult` (internal/domain/reconciliation_result.go).
The Go field `UnMatchedBankTxns` is a `map[string][]BankTransaction` grouped
by `BankID`; since each transaction carries its `BankID` the grouping is a
presentation of the flat collection, which is what is modelled here
(iteration order of a Go map is unspecified anyway).  `TotalTxnsProcessed`
counts retained matches plus unmatched items on both sides. -/
structure ReconciliationResult where
  TotalTxnsProcessed : Nat
  MatchedTxns : List Match
  UnMatchedSystemTxns : List SystemTransaction
  UnMatchedBankTxns : List BankTransaction
  TotalDiscrepancies : Rat
deriving DecidableEq, Repr

/-- The Go zero value `domain.ReconciliationResult{}` returned on every
error path of `Reconcile`. -/
def emptyReconciliationResult : ReconciliationResult :=
  { TotalTxnsProcessed := 0
    MatchedTxns := []
    UnMatchedSystemTxns := []
    UnMatchedBankTxns := []
    TotalDiscrepancies := 0 }

/-- `(*ReconciliationService).filterMatchesByDateRange`
(internal/service/reconciliation_service.go lines 82-96): keep a match iff
the *system* transaction's truncated date lies in the requested window. -/
def filterMatchesByDateRange (matchList : List Match) (startDate endDate : Int) :
    List Match :=
  matchList.filter (fun m => inDayRange m.SystemTxn.TransactionTime startDate endDate)

/-- `(*ReconciliationService).findUnmatchedSystemTransactions` (lines
98-129): skip transactions whose `TrxID` appears in a retained match, keep
the rest iff their truncated date lies in the requested window. -/
def findUnmatchedSystemTransactions (systemTxns : List SystemTransaction)
    (matchList : List Match) (startDate endDate : Int) : List SystemTransaction :=
  let matchedIDs := matchList.map (fun m => m.SystemTxn.TrxID)
  systemTxns.filter (fun txn =>
    !(matchedIDs.contains txn.TrxID) && inDayRange txn.TransactionTime startDate endDate)

/-- `(*ReconciliationService).findUnmatchedBankTransactions` (lines
131-163): skip transactions whose `(BankID, UniqID)` key appears in a
retained match, keep the rest iff their truncated date lies in the
requested window (the Go code groups the survivors by `BankID`; see
`ReconciliationResult`). -/
def findUnmatchedBankTransactions (bankTxns : List BankTransaction)
    (matchList : List Match) (startDate endDate : Int) : List BankTransaction :=
  let matchedIDs := matchList.map (fun m => bankKey m.BankTxn)
  bankTxns.filter (fun txn =>
    !(matchedIDs.contains (bankKey txn)) && inDayRange txn.Date startDate endDate)

/-- `(*ReconciliationService).calculateTotalDiscrepancies` (lines 165-173). -/
def calculateTotalDiscrepancies (matchList : List Match) : Rat :=
  matchList.foldl (fun total m => total + m.AmmountDiff) 0

/-- `service.ReconciliationService` (internal/service).  The repositories
are modelled by their observable behaviour: the function from a
`(startDate, endDate)` pair to the result of
`GetTransactionsInRangeConcurrently` (the method `Reconcile` calls).  The
`bankRepos` Go map is modelled as a list in one iteration order.  The
matcher interface has `DefaultMatcher` as its only implementation in the
repository. -/
structure ReconciliationService where
  systemRepo : Int → Int → Except String (List SystemTransaction)
  bankRepos : List (Int → Int → Except String (List BankTransaction))
  matcher : DefaultMatcher
  dateBuffer : Int

/-- The bank-fetch loop inside `Reconcile` (lines 47-55): fetch each bank
feed in turn, abort on the first error, otherwise append. -/
def fetchAllBanks (repos : List (Int → Int → Except String (List BankTransaction)))
    (startDate endDate : Int) : Except String (List BankTransaction) :=
  match repos with
  | [] => Except.ok []
  | repo :: rest =>
    match repo startDate endDate with
    | Except.error e => Except.error e
    | Except.ok bankTxns =>
      match fetchAllBanks rest startDate endDate with
      | Except.error e => Except.error e
      | Except.ok more => Except.ok (bankTxns ++ more)

/-- `(*ReconciliationService).Reconcile` (lines 34-80): widen the window by
`dateBuffer` days on both sides, fetch the system feed and every bank feed
over the widened window (aborting with the Go-wrapped error and the zero
result on failure), match, then narrow matches and unmatched partitions
back to the originally requested window. -/
def Reconcile (s : ReconciliationService) (startDate endDate : Int) :
    ReconciliationResult × Option String :=
  let effectiveStartDate := startDate - s.dateBuffer * 86400
  let effectiveEndDate := endDate + s.dateBuffer * 86400
  match s.systemRepo effectiveStartDate effectiveEndDate with
  | Except.error e =>
    (emptyReconciliationResult, some ("fetching system transactions: " ++ e))
  | Except.ok systemTxns =>
    match fetchAllBanks s.bankRepos effectiveStartDate effectiveEndDate with
    | Except.error e =>
      (emptyReconciliationResult, some ("fetching bank transactions: " ++ e))
    | Except.ok allBankTxns =>
      match s.matcher.FindMatches systemTxns allBankTxns with
      | (_, some e) =>
        (emptyReconciliationResult, some ("matching transactions: " ++ e))
      | (matchList, none) =>
        let filteredMatches := filterMatchesByDateRange matchList startDate endDate
        let unmatchedSystemTxns :=
          findUnmatchedSystemTransactions systemTxns filteredMatches startDate endDate
        let unmatchedBankTxns :=
          findUnmatchedBankTransactions allBankTxns filteredMatches startDate endDate
        ({ TotalTxnsProcessed :=
             filteredMatches.length + unmatchedSystemTxns.length + unmatchedBankTxns.length
           MatchedTxns := filteredMatches
           UnMatchedSystemTxns := unmatchedSystemTxns
           UnMatchedBankTxns := unmatchedBankTxns
           TotalDiscrepancies := calculateTotalDiscrepancies filteredMatches }, none)

/-! ### CSV ingestion (internal/repository)

A CSV data row is a list of field strings.  The header-to-column resolution
(`crateHeaderMap`) is shared verbatim by the sequential and the concurrent
paths of both repositories, so both paths below take the already-resolved
column indices.  The library parsers `time.Parse` (with the repository's
date format) and `decimal.NewFromString` are taken as function parameters
of the configuration; concrete faithful instances for the formats the
repository uses are defined further down for closed evaluations. -/

abbrev Row := List String

/-- Resolved configuration of a `CSVBankRepository` ingestion run: the
column indices produced by `crateHeaderMap(header, bankHeaderFields)` for
`unique_identifier`, `amount`, `date`, the repository's `BankIdentifier`,
and the two library parsers. -/
structure BankIngestCfg where
  uniqIdx : Nat
  amountIdx : Nat
  dateIdx : Nat
  bankID : String
  parseDate : String → Option Int
  parseAmount : String → Option Rat

/-- The `maxIndex` computation both row processors perform over the column
map (the maximum of the three resolved indices). -/
def BankIngestCfg.maxIndex (cfg : BankIngestCfg) : Nat :=
  max (max cfg.uniqIdx cfg.amountIdx) cfg.dateIdx

/-- The bank row processor.  This body appears twice in the source with
identical logic: as `rowProcessorFn` inside
`(*CSVBankRepository).GetTransactionsInRange` and as the per-row body of
the worker loop in `startBankWorkers` — skip a short row, skip on an
unparsable date, skip on an unparsable amount, otherwise build the
`domain.BankTransaction`.  Neither copy filters by date here. -/
def bankRowToTxn (cfg : BankIngestCfg) (row : Row) : Option BankTransaction :=
  if row.length ≤ cfg.maxIndex then none
  else
    match cfg.parseDate (row.getD cfg.dateIdx "") with
    | none => none
    | some txDate =>
      match cfg.parseAmount (row.getD cfg.amountIdx "") with
      | none => none
      | some amount =>
        some { UniqID := row.getD cfg.uniqIdx ""
               Amount := amount
               Date := txDate
               BankID := cfg.bankID }

/-- `(*CSVBankRepository).GetTransactionsInRange` (sequential mode), given
the data rows the record source yields: process every row, then filter the
surviving transactions by the day-granularity date range. -/
def bankGetTransactionsInRange (cfg : BankIngestCfg) (rows : List Row)
    (startDate endDate : Int) : List BankTransaction :=
  (rows.filterMap (bankRowToTxn cfg)).filter
    (fun txn => inDayRange txn.Date startDate endDate)

/-- `readAndDistributeSystemTxns` / `readAndDistributeBankStatements`
(identical bodies): accumulate rows into a batch, emit the batch when it
reaches `batchSize`, emit the final non-empty remainder. -/
def readAndDistribute (batchSize : Nat) (batch : List Row) :
    List Row → List (List Row)
  | [] => if batch.isEmpty then [] else [batch]
  | row :: rest =>
    let batch' := batch ++ [row]
    if batchSize ≤ batch'.length then batch' :: readAndDistribute batchSize [] rest
    else readAndDistribute batchSize batch' rest

/-- One bank worker's processing of one batch (`startBankWorkers`, lines
753-785 of the repository source): apply the row processor to each row of
the batch; **no date-range filtering happens here** — the `startDate` and
`endDate` parameters of `startBankWorkers` are never used in the worker
body. -/
def bankWorkerProcessBatch (cfg : BankIngestCfg) (batch : List Row) :
    List BankTransaction :=
  batch.filterMap (bankRowToTxn cfg)

/-- `(*CSVBankRepository).GetTransactionsInRangeConcurrently`, given the
data rows: the producer batches the rows, the worker pool processes each
batch with `bankWorkerProcessBatch`, and the collector concatenates batch
results.  Workers race, so the real collector sees the batch results in
some permutation of producer order; this definition is the
producer-ordered representative (every schedule's output is a permutation
of it, so its membership and multiset of records are schedule-invariant).
Note that the date range does not occur as an argument: the concurrent
bank path ignores it. -/
def bankGetTransactionsInRangeConcurrently (cfg : BankIngestCfg)
    (batchSize : Nat) (rows : List Row) : List BankTransaction :=
  ((readAndDistribute batchSize [] rows).map (bankWorkerProcessBatch cfg)).flatten

/-- Resolved configuration of a `CSVSystemRepository` ingestion run: the
column indices for `trxID`, `amount`, `type`, `transactionTime` and the
library parsers. -/
structure SystemIngestCfg where
  trxIdx : Nat
  amountIdx : Nat
  typeIdx : Nat
  timeIdx : Nat
  parseTime : String → Option Int
  parseAmount : String → Option Rat

/-- The `maxIndex` computation over the system column map. -/
def SystemIngestCfg.maxIndex (cfg : SystemIngestCfg) : Nat :=
  max (max (max cfg.trxIdx cfg.amountIdx) cfg.typeIdx) cfg.timeIdx

/-- The sequential system row processor (`rowProcessorFn` inside
`(*CSVSystemRepository).GetTransactionsInRange`): skip a short row, skip on
an unparsable time, skip on an unparsable amount, skip when the type is
neither `Debit` nor `Credit`, otherwise build the transaction. -/
def systemRowToTxn (cfg : SystemIngestCfg) (row : Row) :
    Option SystemTransaction :=
  if row.length ≤ cfg.maxIndex then none
  else
    match cfg.parseTime (row.getD cfg.timeIdx "") with
    | none => none
    | some txTime =>
      match cfg.parseAmount (row.getD cfg.amountIdx "") with
      | none => none
      | some amount =>
        let txnType := row.getD cfg.typeIdx ""
        if txnType ≠ Debit ∧ txnType ≠ Credit then none
        else
          some { TrxID := row.getD cfg.trxIdx ""
                 Amount := amount
                 Typ := txnType
                 TransactionTime := txTime }

/-- `(*CSVSystemRepository).GetTransactionsInRange` (sequential mode),
given the data rows: process every row, then filter by date range. -/
def systemGetTransactionsInRange (cfg : SystemIngestCfg) (rows : List Row)
    (startDate endDate : Int) : List SystemTransaction :=
  (rows.filterMap (systemRowToTxn cfg)).filter
    (fun txn => inDayRange txn.TransactionTime startDate endDate)

/-- The per-row body of the worker loop in `startWorkers` (system side,
lines 383-433): unlike the bank worker, after parsing the time it **does**
drop the row when `txnDay.Before(startDay) || txnDay.After(endDay)`, then
parses the amount and validates the type. -/
def systemWorkerRowToTxn (cfg : SystemIngestCfg) (startDate endDate : Int)
    (row : Row) : Option SystemTransaction :=
  if row.length ≤ cfg.maxIndex then none
  else
    match cfg.parseTime (row.getD cfg.timeIdx "") with
    | none => none
    | some txTime =>
      if truncDay txTime < truncDay startDate ∨ truncDay endDate < truncDay txTime then
        none
      else
        match cfg.parseAmount (row.getD cfg.amountIdx "") with
        | none => none
        | some amount =>
          let txnType := row.getD cfg.typeIdx ""
          if txnType ≠ Debit ∧ txnType ≠ Credit then none
          else
            some { TrxID := row.getD cfg.trxIdx ""
                   Amount := amount
                   Typ := txnType
                   TransactionTime := txTime }

/-- `(*CSVSystemRepository).GetTransactionsInRangeConcurrently`, given the
data rows: batch, process each batch with the system worker body,
concatenate (producer-ordered representative, as for the bank side). -/
def systemGetTransactionsInRangeConcurrently (cfg : SystemIngestCfg)
    (batchSize : Nat) (rows : List Row) (startDate endDate : Int) :
    List SystemTransaction :=
  ((readAndDistribute batchSize [] rows).map
    (fun batch => batch.filterMap (systemWorkerRowToTxn cfg startDate endDate))).flatten

/-! ### Concrete library parsers

`Reconcile`'s repositories parse dates with Go layout `2006-01-02`
(`bankDateFormat` in cmd/reconciliation/main.go) and amounts with
`decimal.NewFromString`.  The following are faithful executable instances
of those library parsers restricted to the shapes the repository's formats
accept (a full Gregorian `YYYY-MM-DD` validator, and plain
`[-]digits[.digits]` decimals); they exist so that claims can be settled on
closed concrete inputs. -/

/-- Numeric value of a decimal digit character. -/
def digitVal (c : Char) : Option Nat :=
  if c.isDigit then some (c.toNat - '0'.toNat) else none

/-- Parse a non-empty all-digit character list as a natural number. -/
def parseNatDigits (cs : List Char) : Option Nat :=
  if cs.isEmpty then none
  else cs.foldl (fun acc c => acc.bind (fun n => (digitVal c).map (fun d => n * 10 + d)))
    (some 0)

/-- Gregorian leap-year rule. -/
def isLeapYear (y : Nat) : Bool :=
  (y % 4 == 0 && y % 100 != 0) || y % 400 == 0

/-- Length of a Gregorian month. -/
def daysInMonth (y m : Nat) : Nat :=
  if m = 2 then (if isLeapYear y then 29 else 28)
  else if m = 4 ∨ m = 6 ∨ m = 9 ∨ m = 11 then 30
  else 31

/-- Days from the civil date `(y, m, d)` to 1970-01-01 (standard
era-decomposition formula; all intermediate divisions act on non-negative
operands for the years of interest, so truncating division is exact). -/
def daysFromCivil (y m d : Int) : Int :=
  let y' := if m ≤ 2 then y - 1 else y
  let era := (if 0 ≤ y' then y' else y' - 399) / 400
  let yoe := y' - era * 400
  let mp := (m + 9) % 12
  let doy := (153 * mp + 2) / 5 + d - 1
  let doe := yoe * 365 + yoe / 4 - yoe / 100 + doy
  era * 146097 + doe - 719468

/-- `time.Parse("2006-01-02", s)` restricted to valid Gregorian dates:
Unix seconds (midnight UTC) of a well-formed `YYYY-MM-DD` string, `none`
otherwise. -/
def parseDateISO (s : String) : Option Int :=
  match s.data with
  | [y1, y2, y3, y4, s1, m1, m2, s2, d1, d2] =>
    if s1 = '-' ∧ s2 = '-' then
      match parseNatDigits [y1, y2, y3, y4], parseNatDigits [m1, m2],
          parseNatDigits [d1, d2] with
      | some y, some m, some d =>
        if 1 ≤ m ∧ m ≤ 12 ∧ 1 ≤ d ∧ d ≤ daysInMonth y m then
          some (daysFromCivil (Int.ofNat y) (Int.ofNat m) (Int.ofNat d) * 86400)
        else none
      | _, _, _ => none
    else none
  | _ => none

/-- `decimal.NewFromString` restricted to plain `[-]digits[.digits]`
inputs, as a rational value. -/
def parseDecimalString (s : String) : Option Rat :=
  let signed : Bool × List Char :=
    match s.data with
    | '-' :: rest => (true, rest)
    | cs => (false, cs)
  let intPart := signed.2.takeWhile (fun c => c ≠ '.')
  match signed.2.dropWhile (fun c => c ≠ '.') with
  | [] =>
    (parseNatDigits intPart).map (fun n => if signed.1 then -(n : Rat) else (n : Rat))
  | '.' :: frac =>
    match parseNatDigits intPart, parseNatDigits frac with
    | some n, some f =>
      let q : Rat := (n : Rat) + (f : Rat) / ((10 : Rat) ^ frac.length)
      some (if signed.1 then -q else q)
    | _, _ => none
  | _ :: _ => none

/-! ### Repository construction (internal/repository) -/

/-- Go `filepath.Base` (unix rules, no volume name): `"."` for the empty
path, strip trailing separators, keep everything after the last separator,
`"/"` when the path consists only of separators. -/
def goBase (path : String) : String :=
  if path = "" then "."
  else
    let stripped := path.data.reverse.dropWhile (fun c => c = '/')
    let lastComponent := (stripped.takeWhile (fun c => c ≠ '/')).reverse
    if lastComponent = [] then "/" else String.mk lastComponent

/-- `repository.CSVBankRepository` (internal/repository). -/
structure CSVBankRepository where
  FilePath : String
  BankIdentifier : String
  DateFormat : String
  NumWorkers : Nat
  BatchSize : Nat
deriving DecidableEq, Repr

/-- `repository.NewCSVBankRepository`: default the date format, then derive
the bank identifier as `bankID := filepath.Base(filePath)` followed by
`bankID = bankID[:len(bankID)-4]` — an unconditional removal of the last
four bytes, intended to strip a `.csv` extension.  When the base name is
shorter than four bytes the Go slice bound `len(bankID)-4` is negative and
the expression panics; the panic is modelled as `none`.  (Byte length and
character count agree on ASCII paths, which is what is modelled.) -/
def NewCSVBankRepository (filePath dateFormat : String) : Option CSVBankRepository :=
  let df := if dateFormat = "" then "2006-01-02" else dateFormat
  let bankID := goBase filePath
  if bankID.length < 4 then none
  else
    some { FilePath := filePath
           BankIdentifier := bankID.take (bankID.length - 4)
           DateFormat := df
           NumWorkers := 4
           BatchSize := 1000 }

/-! ### Specification-side predicates and concrete example data

The `...Qualifies` predicates below are written from the specification's
wording of the three strategy rules (spec §4.2/§8), to be compared with the
strategy implementations above. -/

/-- Spec wording for the exact strategy: candidate qualifies iff its
day-truncated date equals the ledger transaction's day-truncated date and
its amount equals the normalized ledger amount exactly. -/
def exactQualifies (sysTxn : SystemTransaction) (b : BankTransaction) : Bool :=
  (truncDay b.Date == truncDay sysTxn.TransactionTime) &&
  (b.Amount == getNormalizedAmount sysTxn)

/-- Spec wording for the fuzzy strategy: same-day date equality, and the
absolute amount difference is at most the configured threshold. -/
def fuzzyQualifies (threshold : Rat) (sysTxn : SystemTransaction)
    (b : BankTransaction) : Bool :=
  (truncDay b.Date == truncDay sysTxn.TransactionTime) &&
  decide (|getNormalizedAmount sysTxn - b.Amount| ≤ threshold)

/-- Spec wording for the date-buffered strategy: the candidate's day lies
in the inclusive window `[ledger day - bufferDays, ledger day + bufferDays]`
and the amount matches exactly. -/
def dateBufferQualifies (bufferDays : Int) (sysTxn : SystemTransaction)
    (b : BankTransaction) : Bool :=
  (decide (truncDay sysTxn.TransactionTime - bufferDays * 86400 ≤ truncDay b.Date) &&
   decide (truncDay b.Date ≤ truncDay sysTxn.TransactionTime + bufferDays * 86400)) &&
  (b.Amount == getNormalizedAmount sysTxn)

/-- A `ReconciliationService` whose feeds all succeed with fixed record
sets (the repositories' success behaviour, abstracted from the files). -/
def mkOkService (strategies : List MatchingStrategy)
    (systemTxns : List SystemTransaction)
    (bankFeeds : List (List BankTransaction)) (dateBuffer : Int) :
    ReconciliationService :=
  { systemRepo := fun _ _ => Except.ok systemTxns
    bankRepos := bankFeeds.map (fun feed => fun _ _ => Except.ok feed)
    matcher := { strategies := strategies }
    dateBuffer := dateBuffer }

/-- Concrete bank ingestion configuration: the column order
`unique_identifier, amount, date` of the repository's test data, the
repository's bank identifier for `bank_statements.csv`, and the library
parsers for the default bank date format `2006-01-02`. -/
def exBankCfg : BankIngestCfg :=
  { uniqIdx := 0
    amountIdx := 1
    dateIdx := 2
    bankID := "bank_statements"
    parseDate := parseDateISO
    parseAmount := parseDecimalString }

/-- One well-formed bank statement row dated 2025-01-20. -/
def exBankRows : List Row := [["B-1", "150", "2025-01-20"]]

/-- A service whose system feed fails. -/
def exSystemFailService : ReconciliationService :=
  { systemRepo := fun _ _ => Except.error "boom"
    bankRepos := []
    matcher := { strategies := [] }
    dateBuffer := 1 }

/-- The failing bank feed of `exBankFailService`. -/
def exBankFailRepo : Int → Int → Except String (List BankTransaction) :=
  fun _ _ => Except.error "bad feed"

/-- A service whose system feed succeeds and whose single bank feed fails. -/
def exBankFailService : ReconciliationService :=
  { systemRepo := fun _ _ => Except.ok []
    bankRepos := [exBankFailRepo]
    matcher := { strategies := [] }
    dateBuffer := 1 }

/-- A default matcher with the exact strategy only. -/
def exMatcher : DefaultMatcher := { strategies := [MatchingStrategy.exact {}] }

/-- Two system transactions with distinct identifiers, both eligible for
the single bank transaction of `exBankTxns`. -/
def exSystemTxns : List SystemTransaction :=
  [{ TrxID := "T-1", Amount := 150, Typ := "CREDIT", TransactionTime := 0 },
   { TrxID := "T-2", Amount := 150, Typ := "CREDIT", TransactionTime := 0 }]

/-- A single bank transaction. -/
def exBankTxns : List BankTransaction :=
  [{ UniqID := "B-1", Amount := 150, Date := 0, BankID := "bank_a" }]

/-! ### Theorems -/

theorem truncDay_sub_mul (t k : Int) :
    truncDay (t - k * 86400) = truncDay t - k * 86400 := by
  unfold truncDay; omega

theorem truncDay_add_mul (t k : Int) :
    truncDay (t + k * 86400) = truncDay t + k * 86400 := by
  unfold truncDay; omega

theorem inDayRange_eq_true_iff (t a b : Int) :
    inDayRange t a b = true ↔ truncDay a ≤ truncDay t ∧ truncDay t ≤ truncDay b := by
  simp only [inDayRange, Bool.and_eq_true, Bool.or_eq_true, beq_iff_eq,
    decide_eq_true_eq]
  omega

theorem exactScan_eq_find (sysDay : Int) (sysAmount : Rat)
    (l : List BankTransaction) :
    exactScan sysDay sysAmount l =
      l.find? (fun b => (truncDay b.Date == sysDay) && (b.Amount == sysAmount)) := by
  induction l with
  | nil => rfl
  | cons b rest ih =>
    by_cases h1 : truncDay b.Date = sysDay
    · by_cases h2 : b.Amount = sysAmount
      · simp [exactScan, List.find?_cons, h1, h2]
      · simp [exactScan, List.find?_cons, h1, h2, ih]
    · simp [exactScan, List.find?_cons, h1, ih]

theorem fuzzyScan_eq_find (sysDay : Int) (sysAmount threshold : Rat)
    (l : List BankTransaction) :
    fuzzyScan sysDay sysAmount threshold l =
      l.find? (fun b =>
        (truncDay b.Date == sysDay) && decide (|sysAmount - b.Amount| ≤ threshold)) := by
  induction l with
  | nil => rfl
  | cons b rest ih =>
    by_cases h1 : truncDay b.Date = sysDay
    · by_cases h2 : threshold < |sysAmount - b.Amount|
      · have h2' : ¬ (|sysAmount - b.Amount| ≤ threshold) := not_le.mpr h2
        simp [fuzzyScan, List.find?_cons, h1, h2, h2', ih]
      · have h2' : |sysAmount - b.Amount| ≤ threshold := not_lt.mp h2
        simp [fuzzyScan, List.find?_cons, h1, h2, h2']
    · simp [fuzzyScan, List.find?_cons, h1, ih]

theorem dateBufferScan_eq_find (minD maxD : Int) (sysAmount : Rat)
    (l : List BankTransaction) :
    dateBufferScan minD maxD sysAmount l =
      l.find? (fun b =>
        (decide (minD ≤ truncDay b.Date) && decide (truncDay b.Date ≤ maxD)) &&
        (b.Amount == sysAmount)) := by
  induction l with
  | nil => rfl
  | cons b rest ih =>
    by_cases h1 : truncDay b.Date < minD ∨ maxD < truncDay b.Date
    · have h1a : ¬ (minD ≤ truncDay b.Date ∧ truncDay b.Date ≤ maxD) := by omega
      rcases Decidable.not_and_iff_or_not.mp h1a with h | h <;>
        simp [dateBufferScan, List.find?_cons, h1, h, ih]
    · have h1a : minD ≤ truncDay b.Date := by omega
      have h1b : truncDay b.Date ≤ maxD := by omega
      by_cases h2 : b.Amount = sysAmount
      · simp [dateBufferScan, List.find?_cons, h1, h1a, h1b, h2]
      · simp [dateBufferScan, List.find?_cons, h1, h1a, h1b, h2, ih]

theorem exactMatch_eq_find (s : ExactMatchStrategy)
    (sysTxn : SystemTransaction) (l : List BankTransaction) :
    s.Match sysTxn l = l.find? (exactQualifies sysTxn) := by
  rw [ExactMatchStrategy.Match, exactScan_eq_find]
  rfl

theorem fuzzyMatch_eq_find (s : FuzzyMatchStrategy)
    (sysTxn : SystemTransaction) (l : List BankTransaction) :
    s.Match sysTxn l = l.find? (fuzzyQualifies s.AmountThreshold sysTxn) := by
  rw [FuzzyMatchStrategy.Match, fuzzyScan_eq_find]
  rfl

theorem dateBufferMatch_eq_find (s : DateBufferMatchStrategy)
    (sysTxn : SystemTransaction) (l : List BankTransaction) :
    s.Match sysTxn l = l.find? (dateBufferQualifies s.BufferDays sysTxn) := by
  rw [DateBufferMatchStrategy.Match, dateBufferScan_eq_find]
  congr 1
  funext b
  rw [dateBufferQualifies, truncDay_sub_mul, truncDay_add_mul]

/-- Claim C4: for every system transaction and candidate list, each of the
three strategies returns the first candidate in input order satisfying its
qualification rule (exact: same truncated day and exactly the normalized
amount; fuzzy: same truncated day and absolute difference at most the
threshold; date-buffered: truncated day within plus or minus `BufferDays`
days of the system transaction's truncated day and exactly the normalized
amount), and returns no match exactly when no candidate qualifies. -/
theorem claim_C4_strategy_rules (es : ExactMatchStrategy)
    (fz : FuzzyMatchStrategy) (db : DateBufferMatchStrategy)
    (sysTxn : SystemTransaction) (bankTxns : List BankTransaction) :
    es.Match sysTxn bankTxns = bankTxns.find? (exactQualifies sysTxn) ∧
    fz.Match sysTxn bankTxns =
      bankTxns.find? (fuzzyQualifies fz.AmountThreshold sysTxn) ∧
    db.Match sysTxn bankTxns =
      bankTxns.find? (dateBufferQualifies db.BufferDays sysTxn) ∧
    (es.Match sysTxn bankTxns = none ↔
      bankTxns.all (fun b => !exactQualifies sysTxn b) = true) ∧
    (fz.Match sysTxn bankTxns = none ↔
      bankTxns.all (fun b => !fuzzyQualifies fz.AmountThreshold sysTxn b) = true) ∧
    (db.Match sysTxn bankTxns = none ↔
      bankTxns.all (fun b => !dateBufferQualifies db.BufferDays sysTxn b) = true) := by
  refine ⟨exactMatch_eq_find es sysTxn bankTxns,
    fuzzyMatch_eq_find fz sysTxn bankTxns,
    dateBufferMatch_eq_find db sysTxn bankTxns, ?_, ?_, ?_⟩
  · rw [exactMatch_eq_find es sysTxn bankTxns]
    simp [List.find?_eq_none, List.all_eq_true]
  · rw [fuzzyMatch_eq_find fz sysTxn bankTxns]
    simp [List.find?_eq_none, List.all_eq_true]
  · rw [dateBufferMatch_eq_find db sysTxn bankTxns]
    simp [List.find?_eq_none, List.all_eq_true]

/-- Claim C5: the normalized comparable amount of a Credit transaction is
its stored amount, and of a Debit transaction the negated stored amount. -/
theorem claim_C5_amount_normalization (id : String) (a : Rat) (t : Int) :
    getNormalizedAmount
      { TrxID := id, Amount := a, Typ := Credit, TransactionTime := t } = a ∧
    getNormalizedAmount
      { TrxID := id, Amount := a, Typ := Debit, TransactionTime := t } = -a := by
  refine ⟨?_, ?_⟩ <;> simp [getNormalizedAmount, Credit, Debit]

/-- Claim C8: `getNormalizedAmount` negates only for `Type = Debit`; any
other type value, valid or not, yields the stored amount unnegated. -/
theorem claim_C8_non_debit_unnegated (txn : SystemTransaction)
    (h : txn.Typ ≠ Debit) : getNormalizedAmount txn = txn.Amount := by
  simp [getNormalizedAmount, h]

/-- Witness for claim C8: a system transaction with the invalid empty type
string is compared unnegated. -/
theorem claim_C8_witness :
    getNormalizedAmount
      { TrxID := "T-1", Amount := 150, Typ := "", TransactionTime := 0 } = 150 :=
  claim_C8_non_debit_unnegated
    { TrxID := "T-1", Amount := 150, Typ := "", TransactionTime := 0 } (by decide)

/-- Claim C6 concerns construction-time validation of strategy parameters.
The constructors perform none: `NewDateBufferMatchStrategy(-1)` returns a
usable strategy with `BufferDays = -1` (and `NewFuzzyMatchStrategy` likewise
accepts a negative threshold); no error value exists in their signatures. -/
theorem claim_C6_constructors_accept_invalid_parameters :
    NewDateBufferMatchStrategy (-1) = { BufferDays := -1 } ∧
    NewFuzzyMatchStrategy (-1) = { AmountThreshold := -1 } :=
  ⟨rfl, rfl⟩

theorem MatchingStrategy.run_mem {st : MatchingStrategy}
    {sysTxn : SystemTransaction} {l : List BankTransaction} {b : BankTransaction}
    (h : st.run sysTxn l = some b) : b ∈ l := by
  cases st with
  | exact s =>
    rw [MatchingStrategy.run, exactMatch_eq_find] at h
    exact List.mem_of_find?_eq_some h
  | fuzzy s =>
    rw [MatchingStrategy.run, fuzzyMatch_eq_find] at h
    exact List.mem_of_find?_eq_some h
  | dateBuffer s =>
    rw [MatchingStrategy.run, dateBufferMatch_eq_find] at h
    exact List.mem_of_find?_eq_some h

theorem tryStrategies_sound {claimed : List String} {sysTxn : SystemTransaction}
    {bankTxns : List BankTransaction} {sts : List MatchingStrategy}
    {b : BankTransaction} (h : tryStrategies claimed sysTxn bankTxns sts = some b) :
    b ∈ bankTxns ∧ claimed.contains (bankKey b) = false := by
  induction sts with
  | nil => simp [tryStrategies] at h
  | cons st rest ih =>
    simp only [tryStrategies] at h
    cases hrun : st.run sysTxn
        (bankTxns.filter (fun x => !(claimed.contains (bankKey x)))) with
    | some bt =>
      rw [hrun] at h
      cases h
      have hmem := MatchingStrategy.run_mem hrun
      rw [List.mem_filter] at hmem
      refine ⟨hmem.1, ?_⟩
      simpa using hmem.2
    | none =>
      rw [hrun] at h
      exact ih h

theorem findMatchesGo_fresh {strategies : List MatchingStrategy} :
    ∀ {systemTxns : List SystemTransaction} {bankTxns : List BankTransaction}
      {claimed : List String} {m : Match},
      m ∈ findMatchesGo strategies claimed systemTxns bankTxns →
      claimed.contains (bankKey m.BankTxn) = false := by
  intro systemTxns
  induction systemTxns with
  | nil =>
    intro bankTxns claimed m h
    simp [findMatchesGo] at h
  | cons sysTxn rest ih =>
    intro bankTxns claimed m h
    simp only [findMatchesGo] at h
    cases htry : tryStrategies claimed sysTxn bankTxns strategies with
    | some bt =>
      rw [htry] at h
      rcases List.mem_cons.mp h with rfl | hmem
      · exact (tryStrategies_sound htry).2
      · have hcons := ih hmem
        simp only [List.contains_cons, Bool.or_eq_false_iff] at hcons
        exact hcons.2
    | none =>
      rw [htry] at h
      exact ih h

theorem findMatchesGo_pairwise_keys {strategies : List MatchingStrategy} :
    ∀ {systemTxns : List SystemTransaction} {bankTxns : List BankTransaction}
      {claimed : List String},
      (findMatchesGo strategies claimed systemTxns bankTxns).Pairwise
        (fun m1 m2 => bankKey m1.BankTxn ≠ bankKey m2.BankTxn) := by
  intro systemTxns
  induction systemTxns with
  | nil =>
    intro bankTxns claimed
    simp [findMatchesGo]
  | cons sysTxn rest ih =>
    intro bankTxns claimed
    simp only [findMatchesGo]
    cases htry : tryStrategies claimed sysTxn bankTxns strategies with
    | some bt =>
      refine List.Pairwise.cons ?_ ih
      intro m hm
      have hfresh := findMatchesGo_fresh hm
      simp only [List.contains_cons, Bool.or_eq_false_iff, beq_eq_false_iff_ne] at hfresh
      exact fun heq => hfresh.1 heq.symm
    | none => exact ih

theorem findMatchesGo_sublist {strategies : List MatchingStrategy} :
    ∀ {systemTxns : List SystemTransaction} {bankTxns : List BankTransaction}
      {claimed : List String},
      ((findMatchesGo strategies claimed systemTxns bankTxns).map
        (fun m => m.SystemTxn)).Sublist systemTxns := by
  intro systemTxns
  induction systemTxns with
  | nil =>
    intro bankTxns claimed
    simp [findMatchesGo]
  | cons sysTxn rest ih =>
    intro bankTxns claimed
    simp only [findMatchesGo]
    cases htry : tryStrategies claimed sysTxn bankTxns strategies with
    | some bt =>
      simpa using List.Sublist.cons₂ sysTxn ih
    | none => exact List.Sublist.cons sysTxn ih

/-- Claim C2: in a single `FindMatches` run, no `(BankID, UniqID)` pair of
a statement record occurs in two matches, and (given pairwise-distinct
ledger identifiers, the spec invariant for an ingested ledger feed) no
ledger record occurs in two matches. -/
theorem claim_C2_at_most_one_match (m : DefaultMatcher)
    (systemTxns : List SystemTransaction) (bankTxns : List BankTransaction)
    (huniq : systemTxns.Pairwise (fun a b => a.TrxID ≠ b.TrxID)) :
    (m.FindMatches systemTxns bankTxns).1.Pairwise
      (fun m1 m2 =>
        ¬(m1.BankTxn.BankID = m2.BankTxn.BankID ∧
          m1.BankTxn.UniqID = m2.BankTxn.UniqID)) ∧
    (m.FindMatches systemTxns bankTxns).1.Pairwise
      (fun m1 m2 => m1.SystemTxn.TrxID ≠ m2.SystemTxn.TrxID) := by
  constructor
  · refine List.Pairwise.imp ?_ (findMatchesGo_pairwise_keys)
    intro m1 m2 hkey ⟨hbid, huid⟩
    exact hkey (by rw [bankKey, bankKey, hbid, huid])
  · have hsub := @findMatchesGo_sublist m.strategies systemTxns bankTxns []
    have hpw := huniq.sublist hsub
    rw [List.pairwise_map] at hpw
    exact hpw

/-- Witness for claim C2: two distinct-identifier system transactions
competing for one bank transaction. -/
theorem claim_C2_witness :
    (exMatcher.FindMatches exSystemTxns exBankTxns).1.Pairwise
      (fun m1 m2 =>
        ¬(m1.BankTxn.BankID = m2.BankTxn.BankID ∧
          m1.BankTxn.UniqID = m2.BankTxn.UniqID)) ∧
    (exMatcher.FindMatches exSystemTxns exBankTxns).1.Pairwise
      (fun m1 m2 => m1.SystemTxn.TrxID ≠ m2.SystemTxn.TrxID) :=
  claim_C2_at_most_one_match exMatcher exSystemTxns exBankTxns (by
    rw [exSystemTxns]
    exact List.pairwise_cons.mpr ⟨by intro b hb; rw [List.mem_singleton.mp hb]; decide,
      List.pairwise_singleton _ _⟩)

theorem all_of_filter {α : Type} (l : List α) (p q : α → Bool)
    (h : ∀ x, p x = true → q x = true) : (l.filter p).all q = true := by
  rw [List.all_eq_true]
  intro x hx
  exact h x (List.of_mem_filter hx)

/-- Claim C3: every match, unmatched system transaction and unmatched bank
transaction in the result of `Reconcile` has its own day-truncated date
inside the requested (non-widened) inclusive window, for every service
configuration (hence whatever the buffer-widened ingestion returned). -/
theorem claim_C3_narrowed_result (s : ReconciliationService)
    (startDate endDate : Int) :
    ((Reconcile s startDate endDate).1.MatchedTxns.all
      (fun m => inDayRange m.SystemTxn.TransactionTime startDate endDate)) = true ∧
    ((Reconcile s startDate endDate).1.UnMatchedSystemTxns.all
      (fun txn => inDayRange txn.TransactionTime startDate endDate)) = true ∧
    ((Reconcile s startDate endDate).1.UnMatchedBankTxns.all
      (fun txn => inDayRange txn.Date startDate endDate)) = true := by
  simp only [Reconcile, DefaultMatcher.FindMatches]
  cases hsys : s.systemRepo (startDate - s.dateBuffer * 86400)
      (endDate + s.dateBuffer * 86400) with
  | error e => simp [emptyReconciliationResult]
  | ok systemTxns =>
    cases hbank : fetchAllBanks s.bankRepos (startDate - s.dateBuffer * 86400)
        (endDate + s.dateBuffer * 86400) with
    | error e => simp [emptyReconciliationResult]
    | ok allBankTxns =>
      simp only
      refine ⟨?_, ?_, ?_⟩
      · exact all_of_filter _ _ _ (fun x hx => hx)
      · refine all_of_filter _ _ _ (fun x hx => ?_)
        rw [Bool.and_eq_true] at hx
        exact hx.2
      · refine all_of_filter _ _ _ (fun x hx => ?_)
        rw [Bool.and_eq_true] at hx
        exact hx.2

theorem fetchAllBanks_mem_error
    (repos : List (Int → Int → Except String (List BankTransaction)))
    (a b : Int) (repo : Int → Int → Except String (List BankTransaction))
    (hmem : repo ∈ repos) (e : String) (herr : repo a b = Except.error e) :
    ∃ e2, fetchAllBanks repos a b = Except.error e2 := by
  induction repos with
  | nil => simp at hmem
  | cons r rest ih =>
    rcases List.mem_cons.mp hmem with rfl | hmem2
    · rw [fetchAllBanks, herr]
      exact ⟨e, rfl⟩
    · rw [fetchAllBanks]
      cases hr : r a b with
      | error e3 => exact ⟨e3, rfl⟩
      | ok txns =>
        rcases ih hmem2 with ⟨e2, h2⟩
        rw [h2]
        exact ⟨e2, rfl⟩

/-- Claim C7: a failing system feed or a failing bank feed aborts
`Reconcile` with the zero-value result and the feed's error wrapped in the
corresponding message — no partial-feed results are produced; and if any
bank feed in the service fails, the bank-fetch stage as a whole fails. -/
theorem claim_C7_feed_failure_aborts (s : ReconciliationService)
    (startDate endDate : Int) (e : String) :
    (s.systemRepo (startDate - s.dateBuffer * 86400)
        (endDate + s.dateBuffer * 86400) = Except.error e →
      Reconcile s startDate endDate =
        (emptyReconciliationResult, some ("fetching system transactions: " ++ e))) ∧
    (∀ systemTxns,
      s.systemRepo (startDate - s.dateBuffer * 86400)
        (endDate + s.dateBuffer * 86400) = Except.ok systemTxns →
      fetchAllBanks s.bankRepos (startDate - s.dateBuffer * 86400)
        (endDate + s.dateBuffer * 86400) = Except.error e →
      Reconcile s startDate endDate =
        (emptyReconciliationResult, some ("fetching bank transactions: " ++ e))) ∧
    (∀ repo, repo ∈ s.bankRepos →
      repo (startDate - s.dateBuffer * 86400)
        (endDate + s.dateBuffer * 86400) = Except.error e →
      ∃ e2, fetchAllBanks s.bankRepos (startDate - s.dateBuffer * 86400)
        (endDate + s.dateBuffer * 86400) = Except.error e2) := by
  refine ⟨?_, ?_, ?_⟩
  · intro hsys
    simp only [Reconcile, hsys]
  · intro systemTxns hsys hbank
    simp only [Reconcile, hsys, hbank]
  · intro repo hmem herr
    exact fetchAllBanks_mem_error s.bankRepos _ _ repo hmem e herr

/-- Witness for claim C7: a service with a failing system feed aborts with
the system-fetch error, and a service with a failing bank feed aborts with
the bank-fetch error; the failing bank feed also fails the bank-fetch
stage. -/
theorem claim_C7_witness :
    Reconcile exSystemFailService 0 0 =
      (emptyReconciliationResult, some ("fetching system transactions: " ++ "boom")) ∧
    Reconcile exBankFailService 0 0 =
      (emptyReconciliationResult, some ("fetching bank transactions: " ++ "bad feed")) ∧
    (∃ e2, fetchAllBanks exBankFailService.bankRepos (0 - exBankFailService.dateBuffer * 86400)
      (0 + exBankFailService.dateBuffer * 86400) = Except.error e2) :=
  ⟨(claim_C7_feed_failure_aborts exSystemFailService 0 0 "boom").1 rfl,
   (claim_C7_feed_failure_aborts exBankFailService 0 0 "bad feed").2.1 [] rfl rfl,
   (claim_C7_feed_failure_aborts exBankFailService 0 0 "bad feed").2.2 exBankFailRepo
     (List.mem_singleton.mpr rfl) rfl⟩

theorem fetchAllBanks_all_ok (feeds : List (List BankTransaction)) (a b : Int) :
    fetchAllBanks (feeds.map (fun feed => fun _ _ => Except.ok feed)) a b =
      Except.ok feeds.flatten := by
  induction feeds with
  | nil => rfl
  | cons f rest ih => simp [fetchAllBanks, ih]

/-- Claim C9: `DefaultMatcher.FindMatches` never returns an error — its
error component is `none` for all inputs — and consequently `Reconcile`
over successfully-ingesting feeds returns no error at all: the
matching-error branch is unreachable. -/
theorem claim_C9_findmatches_never_errors (m : DefaultMatcher)
    (systemTxns : List SystemTransaction) (bankTxns : List BankTransaction)
    (strategies : List MatchingStrategy) (sysFeed : List SystemTransaction)
    (bankFeeds : List (List BankTransaction)) (dateBuffer startDate endDate : Int) :
    (m.FindMatches systemTxns bankTxns).2 = none ∧
    (Reconcile (mkOkService strategies sysFeed bankFeeds dateBuffer)
      startDate endDate).2 = none := by
  refine ⟨rfl, ?_⟩
  simp only [Reconcile, mkOkService, fetchAllBanks_all_ok,
    DefaultMatcher.FindMatches]

theorem readAndDistribute_flatten (batchSize : Nat) :
    ∀ (rows batch : List Row),
      (readAndDistribute batchSize batch rows).flatten = batch ++ rows := by
  intro rows
  induction rows with
  | nil =>
    intro batch
    rw [readAndDistribute]
    by_cases hb : batch.isEmpty
    · rw [if_pos hb, List.flatten_nil, List.isEmpty_iff.mp hb]
      rfl
    · rw [if_neg hb]
      simp
  | cons row rest ih =>
    intro batch
    rw [readAndDistribute]
    by_cases hfull : batchSize ≤ (batch ++ [row]).length
    · rw [if_pos hfull, List.flatten_cons, ih []]
      simp
    · rw [if_neg hfull, ih (batch ++ [row])]
      simp

theorem systemWorkerRowToTxn_eq (cfg : SystemIngestCfg) (a b : Int) (row : Row) :
    systemWorkerRowToTxn cfg a b row =
      (systemRowToTxn cfg row).bind
        (fun t => if inDayRange t.TransactionTime a b then some t else none) := by
  by_cases hlen : row.length ≤ cfg.maxIndex
  · simp only [systemWorkerRowToTxn, systemRowToTxn, if_pos hlen, Option.none_bind]
  · cases htime : cfg.parseTime (row.getD cfg.timeIdx "") with
    | none =>
      simp only [systemWorkerRowToTxn, systemRowToTxn, if_neg hlen, htime,
        Option.none_bind]
    | some txTime =>
      cases hamt : cfg.parseAmount (row.getD cfg.amountIdx "") with
      | none =>
        simp only [systemWorkerRowToTxn, systemRowToTxn, if_neg hlen, htime, hamt,
          Option.none_bind, ite_self]
      | some amount =>
        by_cases htype : row.getD cfg.typeIdx "" ≠ Debit ∧ row.getD cfg.typeIdx "" ≠ Credit
        · simp only [systemWorkerRowToTxn, systemRowToTxn, if_neg hlen, htime, hamt,
            if_pos htype, Option.none_bind, ite_self]
        · by_cases hrange : truncDay txTime < truncDay a ∨ truncDay b < truncDay txTime
          · have hfalse : inDayRange txTime a b = false := by
              cases hd : inDayRange txTime a b
              · rfl
              · rw [inDayRange_eq_true_iff] at hd
                omega
            simp only [systemWorkerRowToTxn, systemRowToTxn, if_neg hlen, htime, hamt,
              if_neg htype, if_pos hrange, Option.some_bind, hfalse, Bool.false_eq_true,
              if_false]
          · have htrue : inDayRange txTime a b = true := by
              rw [inDayRange_eq_true_iff]
              omega
            simp only [systemWorkerRowToTxn, systemRowToTxn, if_neg hlen, htime, hamt,
              if_neg htype, if_neg hrange, Option.some_bind, htrue, if_true]

theorem filterMap_worker_eq (cfg : SystemIngestCfg) (a b : Int) (rows : List Row) :
    rows.filterMap (systemWorkerRowToTxn cfg a b) =
      (rows.filterMap (systemRowToTxn cfg)).filter
        (fun t => inDayRange t.TransactionTime a b) := by
  induction rows with
  | nil => rfl
  | cons row rest ih =>
    cases hseq : systemRowToTxn cfg row with
    | none =>
      have hw : systemWorkerRowToTxn cfg a b row = none := by
        rw [systemWorkerRowToTxn_eq, hseq]
        rfl
      rw [List.filterMap_cons_none hw, List.filterMap_cons_none hseq, ih]
    | some t =>
      by_cases hin : inDayRange t.TransactionTime a b = true
      · have hw : systemWorkerRowToTxn cfg a b row = some t := by
          rw [systemWorkerRowToTxn_eq, hseq]
          simp [hin]
        rw [List.filterMap_cons_some hw, List.filterMap_cons_some hseq,
          List.filter_cons, ih]
        simp [hin]
      · have hw : systemWorkerRowToTxn cfg a b row = none := by
          rw [systemWorkerRowToTxn_eq, hseq]
          simp [hin]
        rw [List.filterMap_cons_none hw, List.filterMap_cons_some hseq,
          List.filter_cons, ih]
        simp [hin]


theorem flatten_map_filterMap {α β : Type} (f : α → Option β) (L : List (List α)) :
    (L.map (fun l => l.filterMap f)).flatten = L.flatten.filterMap f := by
  induction L with
  | nil => rfl
  | cons l rest ih =>
    rw [List.map_cons, List.flatten_cons, ih, List.flatten_cons,
      List.filterMap_append]

/-- The system repository's two ingestion modes compute the same record
list (before worker scheduling): batching, per-batch worker processing and
concatenation equal the sequential parse-then-filter pipeline. -/
theorem system_ingestion_modes_agree (cfg : SystemIngestCfg) (batchSize : Nat)
    (rows : List Row) (startDate endDate : Int) :
    systemGetTransactionsInRangeConcurrently cfg batchSize rows startDate endDate =
      systemGetTransactionsInRange cfg rows startDate endDate := by
  rw [systemGetTransactionsInRangeConcurrently, systemGetTransactionsInRange,
    flatten_map_filterMap, readAndDistribute_flatten, List.nil_append,
    filterMap_worker_eq]

/-- Whatever order the racing system workers deliver their batch results
in, the flattened output is a permutation of the sequential result: the
two modes agree as unordered collections. -/
theorem system_concurrent_schedule_perm (cfg : SystemIngestCfg)
    (batchSize : Nat) (rows : List Row) (startDate endDate : Int)
    (outs : List (List SystemTransaction))
    (hperm : outs.Perm ((readAndDistribute batchSize [] rows).map
      (fun batch => batch.filterMap (systemWorkerRowToTxn cfg startDate endDate)))) :
    outs.flatten.Perm (systemGetTransactionsInRange cfg rows startDate endDate) := by
  have h := hperm.flatten
  rw [← systemGetTransactionsInRangeConcurrently] at h
  rw [system_ingestion_modes_agree] at h
  exact h

/-- Claim C1 concerns the equivalence of sequential and concurrent
ingestion.  It holds for the system repository
(`system_ingestion_modes_agree` above) but fails for the bank repository:
`startBankWorkers` never uses its `startDate`/`endDate` parameters, so the
concurrent bank path skips the date filter the sequential path applies.
On a single well-formed row dated 2025-01-20 with the requested window
2025-01-15 .. 2025-01-16, sequential ingestion returns the empty set while
concurrent ingestion returns the out-of-range record — the two modes
disagree even as unordered collections. -/
theorem claim_C1_bank_concurrent_skips_date_filter :
    bankGetTransactionsInRange exBankCfg exBankRows
      (daysFromCivil 2025 1 15 * 86400) (daysFromCivil 2025 1 16 * 86400) = [] ∧
    bankGetTransactionsInRangeConcurrently exBankCfg 1000 exBankRows =
      [{ UniqID := "B-1", Amount := 150, Date := daysFromCivil 2025 1 20 * 86400,
         BankID := "bank_statements" }] := by
  constructor <;> decide

/-- Claim C10: `NewCSVBankRepository` derives the bank identifier by
slicing the last four bytes off the path's base name.  When the base name
is shorter than four characters the slice bound is negative and the Go
code panics (modelled as `none`); otherwise the identifier is
unconditionally the base name minus its last four characters, whether or
not the name ends in `.csv`. -/
theorem claim_C10_bank_id_slicing (path dateFormat : String) :
    ((goBase path).length < 4 → NewCSVBankRepository path dateFormat = none) ∧
    (4 ≤ (goBase path).length →
      NewCSVBankRepository path dateFormat =
        some { FilePath := path
               BankIdentifier := (goBase path).take ((goBase path).length - 4)
               DateFormat := if dateFormat = "" then "2006-01-02" else dateFormat
               NumWorkers := 4
               BatchSize := 1000 }) := by
  constructor
  · intro h
    rw [NewCSVBankRepository]
    simp [h]
  · intro h
    rw [NewCSVBankRepository]
    simp [Nat.not_lt.mpr h]

/-- Witness for claim C10: a two-character base name makes construction
blow up, and a path ending in `.txt` silently loses its last four
characters. -/
theorem claim_C10_witness :
    NewCSVBankRepository "ab" "" = none ∧
    NewCSVBankRepository "report.txt" "" =
      some { FilePath := "report.txt"
             BankIdentifier := "report"
             DateFormat := "2006-01-02"
             NumWorkers := 4
             BatchSize := 1000 } := by
  refine ⟨(claim_C10_bank_id_slicing "ab" "").1 (by decide), ?_⟩
  have h := (claim_C10_bank_id_slicing "report.txt" "").2 (by decide)
  rw [h]
  decide
